import Mathlib

/-!
# FlowState day-record store and text extractor: a shallow embedding

This file embeds the persistence layer (`loadAllDaysLocal`, `upsertDayLocal`,
`readDayLocal`, the Supabase-backed `loadAllDays` / `upsertDay` / `readDay`,
`seedIfEmpty`) and the deterministic part of the text extractor
(`simulateAIProcessing`) of the FlowState single-file React app, together
with the Dashboard handler that merges an extraction result into the current
day record, and proves or refutes the specification's claims about them.

JavaScript objects are modelled as association lists with unique keys
(`Obj`), keeping JS insertion-order semantics for spread and assignment.
The JSON round-trip through `localStorage` (`JSON.parse ∘ JSON.stringify`
is the identity on plain data) lets the data-level operations work on the
parsed mapping directly; the raw string layer, where parse errors live, is
modelled separately by `loadAllDaysLocal` for the failure-semantics claim.
Remote (Supabase) calls are modelled by the table state plus a per-call
failure flag: `remoteFails = true` models the thrown error that the source
catches, after which the source runs the local-backend operation.
-/

namespace FlowState

/-- A JavaScript object: an association list of fields, in insertion order,
with at most one entry per key (all objects built by the app have unique
keys, and the operations below preserve that). -/
abbrev Obj (α : Type) : Type := List (String × α)

/-- JS property access `o[k]`: the value at key `k`, or `undefined` (`none`). -/
def Obj.find {α : Type} : Obj α → String → Option α
  | [], _ => none
  | p :: t, k => if p.1 == k then some p.2 else Obj.find t k

/-- Whether `o` has key `k` among its own properties. -/
def Obj.hasKey {α : Type} : Obj α → String → Bool
  | [], _ => false
  | p :: t, k => p.1 == k || Obj.hasKey t k

/-- JS assignment `o[k] = v`: updates the entry in place if the key exists
(keeping its position), otherwise appends the new entry. -/
def Obj.set {α : Type} : Obj α → String → α → Obj α
  | [], k, v => [(k, v)]
  | p :: t, k, v => if p.1 == k then (k, v) :: t else p :: Obj.set t k v

/-- JS spread `{...a, ...b}`: keys of `a` in order (values overridden by `b`
where `b` also has the key), then keys of `b` not in `a`, in order. -/
def Obj.spread {α : Type} (a b : Obj α) : Obj α :=
  (a.map (fun p => (p.1, (Obj.find b p.1).getD p.2))) ++
    b.filter (fun p => !(Obj.hasKey a p.1))

/-- A JSON-ish value stored in a day record: the app stores strings,
booleans, and one level of nested objects (`lunch`, `dinner`, `workout`,
`goals`). -/
inductive Val : Type where
  | s : String → Val
  | b : Bool → Val
  | o : List (String × Val) → Val

/-! ## The local backend

Source (`part_000`, lines 219–245): the whole store is one JSON object held
under the fixed `localStorage` key. `loadAllDaysLocal` is modelled at the
raw layer: `raw` is what `localStorage.getItem` returned (`none` = JS
`null`) and `parse` models `JSON.parse`, whose thrown exception is the
`Except.error` case; the surrounding `try`/`catch` makes the function total
with `{}` as the fallback, also when `raw` is falsy (`null` or `""`). -/

def loadAllDaysLocal {α : Type} (raw : Option String)
    (parse : String → Except String (Obj (Obj α))) : Obj (Obj α) :=
  match raw with
  | none => []
  | some s =>
    if s == "" then []
    else
      match parse s with
      | .ok m => m
      | .error _ => []

/-- `upsertDayLocal` at the parsed-mapping layer: the source loads the whole
mapping, sets `all[date] = { ...(all[date] || {}), ...data }`, saves, and
returns `all[date]`. `all` is the loaded mapping; the returned pair is
(returned record, saved mapping). -/
def upsertDayLocal {α : Type} (date : String) (data : Obj α)
    (all : Obj (Obj α)) : Obj α × Obj (Obj α) :=
  let merged := Obj.spread ((Obj.find all date).getD []) data
  (merged, Obj.set all date merged)

/-- `readDayLocal` at the parsed-mapping layer: `all[date] || null`; every
stored record is an object, hence truthy, so this is just lookup. -/
def readDayLocal {α : Type} (date : String) (all : Obj (Obj α)) : Option (Obj α) :=
  Obj.find all date

/-! ## Backend selection and the Supabase adapter

Source lines 139–144 and 247–297. `BACKEND` is `'local'` or `'supabase'`;
the `supabase` client handle is non-null only when the backend is
`supabase` and both URL and key are set. Each remote operation takes the
remote path only when `BACKEND === "supabase" && supabase`, and any thrown
remote error is caught and answered by the local-backend operation. -/

inductive Backend : Type where
  | loc : Backend
  | supa : Backend
deriving DecidableEq

structure Cfg : Type where
  backend : Backend
  client : Bool
deriving DecidableEq

def Cfg.remoteActive (c : Cfg) : Bool := (c.backend == .supa) && c.client

/-- The two storage worlds: the parsed contents of the `localStorage` key,
and the `flowstate_days` table (one row per date, `payload` column). -/
structure StoreSt (α : Type) : Type where
  localDays : Obj (Obj α)
  remoteRows : Obj (Obj α)

/-- `loadAllDays`: remote path reads all rows and rebuilds
`entries[row.date] = row.payload` (the same mapping); on a thrown error the
`catch` returns `loadAllDaysLocal()`. -/
def loadAllDays {α : Type} (cfg : Cfg) (remoteFails : Bool) (st : StoreSt α) :
    Obj (Obj α) :=
  if cfg.remoteActive then
    if remoteFails then st.localDays else st.remoteRows
  else st.localDays

/-- `upsertDay`: the remote path issues a row upsert keyed on `date`, which
inserts or replaces the `payload` column with `data` (Postgres
`ON CONFLICT ... DO UPDATE`), and returns `upserted?.[0]?.payload || data`,
i.e. `data`; on a thrown error the `catch` runs `upsertDayLocal`. -/
def upsertDay {α : Type} (cfg : Cfg) (remoteFails : Bool) (date : String)
    (data : Obj α) (st : StoreSt α) : Obj α × StoreSt α :=
  if cfg.remoteActive then
    if remoteFails then
      let r := upsertDayLocal date data st.localDays
      (r.1, { st with localDays := r.2 })
    else
      (data, { st with remoteRows := Obj.set st.remoteRows date data })
  else
    let r := upsertDayLocal date data st.localDays
    (r.1, { st with localDays := r.2 })

/-- `readDay`: the remote path selects the row for `date` (`maybeSingle`)
and returns `data?.payload || null`; on a thrown error the `catch` runs
`readDayLocal`. -/
def readDay {α : Type} (cfg : Cfg) (remoteFails : Bool) (date : String)
    (st : StoreSt α) : Option (Obj α) :=
  if cfg.remoteActive then
    if remoteFails then readDayLocal date st.localDays
    else Obj.find st.remoteRows date
  else readDayLocal date st.localDays

/-! ## Seeding (source lines 299–314) -/

def DEFAULT_GOALS : Obj Val :=
  [("wakeGoal", Val.s "07:00"), ("workoutGoal", Val.s "19:00"),
   ("lunchTime", Val.s "13:30"), ("dinnerTime", Val.s "21:00")]

/-- The record `seedIfEmpty` upserts for today (`goals` is
`{ ...DEFAULT_GOALS }`, a shallow copy). -/
def seedRecord : Obj Val :=
  [("wakeTime", Val.s "10:00"),
   ("lunch", Val.o [("time", Val.s "13:30"), ("details", Val.s "veg + one vegetable + dal")]),
   ("dinner", Val.o [("time", Val.s "21:00"), ("details", Val.s "grilled protein (chicken or fish)")]),
   ("workout", Val.o [("time", Val.s "19:00"), ("status", Val.s "skipped")]),
   ("notes", Val.s "Kickoff day. Establishing routine and dashboard."),
   ("goals", Val.o DEFAULT_GOALS)]

/-- `seedIfEmpty`: load everything; if `Object.keys(all).length === 0`
(for unique-key mappings, the list is empty), upsert the seed record for
today's date, else do nothing. `today` stands for `todayISO()`. -/
def seedIfEmpty (cfg : Cfg) (loadFails upsertFails : Bool) (today : String)
    (st : StoreSt Val) : StoreSt Val :=
  let all := loadAllDays cfg loadFails st
  if all.length == 0 then (upsertDay cfg upsertFails today seedRecord st).2
  else st

/-! ## The extractor (source lines 1342–1412)

Only the deterministic structured result is modelled: the canned `response`
string is chosen at random and the spec itself excludes it from the
contract, and the unused `scheduledItems` field is never written. String
predicates mirror the JS ones on ASCII input: `toLowerCase` is per-`Char`
ASCII lowercasing and `includes` is substring containment. -/

/-- JS `String.prototype.toLowerCase` restricted to ASCII. -/
def jsToLower (s : String) : String := (s.toList.map Char.toLower).asString

/-- Does the first list start with the second one? -/
def strStarts {α : Type} [BEq α] : List α → List α → Bool
  | _, [] => true
  | [], _ :: _ => false
  | a :: as, b :: bs => a == b && strStarts as bs

/-- Does the first list contain the second one as a contiguous run? -/
def strHas {α : Type} [BEq α] : List α → List α → Bool
  | [], n => n.isEmpty
  | h :: t, n => strStarts (h :: t) n || strHas t n

/-- JS `haystack.includes(needle)`. -/
def jsIncludes (haystack needle : String) : Bool :=
  strHas haystack.toList needle.toList

/-! The wake-time pattern `/(\d{1,2}:\d{2}|\d{1,2}\s*am|\d{1,2}\s*pm)/i`:
leftmost match, alternatives in order, greedy `\d{1,2}` (two digits first,
backtracking to one), greedy `\s*` (here restricted to ASCII whitespace),
case-insensitive `am`/`pm`. -/

def isWsJS (c : Char) : Bool := c == ' ' || c == '\t' || c == '\n' || c == '\r'

/-- `\d{1,2}:\d{2}` at the current position with a two-digit hour. -/
def tryHMM2 : List Char → Option (List Char)
  | a :: b :: c :: d :: e :: _ =>
    if a.isDigit && b.isDigit && c == ':' && d.isDigit && e.isDigit then
      some [a, b, c, d, e]
    else none
  | _ => none

/-- `\d{1,2}:\d{2}` at the current position with a one-digit hour. -/
def tryHMM1 : List Char → Option (List Char)
  | a :: c :: d :: e :: _ =>
    if a.isDigit && c == ':' && d.isDigit && e.isDigit then some [a, c, d, e]
    else none
  | _ => none

/-- `\s*` then the two given letters, case-insensitively; returns the
consumed characters. -/
def meridTail (m1 m2 : Char) (l : List Char) : Option (List Char) :=
  let ws := l.takeWhile isWsJS
  match l.dropWhile isWsJS with
  | x :: y :: _ =>
    if x.toLower == m1 && y.toLower == m2 then some (ws ++ [x, y]) else none
  | _ => none

/-- `\d{1,2}\s*⟨m1 m2⟩` at the current position with two digits. -/
def meridFrom2 (m1 m2 : Char) : List Char → Option (List Char)
  | a :: b :: rest =>
    if a.isDigit && b.isDigit then (meridTail m1 m2 rest).map (fun t => a :: b :: t)
    else none
  | _ => none

/-- `\d{1,2}\s*⟨m1 m2⟩` at the current position with one digit. -/
def meridFrom1 (m1 m2 : Char) : List Char → Option (List Char)
  | a :: rest =>
    if a.isDigit then (meridTail m1 m2 rest).map (fun t => a :: t) else none
  | _ => none

/-- One `am`/`pm` alternative at the current position (greedy hour with
backtracking). -/
def matchMeridAt (m1 m2 : Char) (l : List Char) : Option (List Char) :=
  (meridFrom2 m1 m2 l).orElse (fun _ => meridFrom1 m1 m2 l)

/-- The whole alternation at the current position, alternatives in source
order. -/
def matchTimeAt (l : List Char) : Option (List Char) :=
  (tryHMM2 l).orElse fun _ =>
    (tryHMM1 l).orElse fun _ =>
      (matchMeridAt 'a' 'm' l).orElse fun _ => matchMeridAt 'p' 'm' l

/-- Leftmost match of the time pattern. -/
def firstTimeMatchL : List Char → Option (List Char)
  | [] => none
  | l@(_ :: t) =>
    match matchTimeAt l with
    | some m => some m
    | none => firstTimeMatchL t

/-- `text.match(/(\d{1,2}:\d{2}|\d{1,2}\s*am|\d{1,2}\s*pm)/i)` and, when it
matched, the captured group `timeMatch[1]` (the whole match). -/
def jsTimeMatch (text : String) : Option String :=
  (firstTimeMatchL text.toList).map List.asString

structure DayTask : Type where
  text : String
  category : String
deriving DecidableEq, Repr

/-- The deterministic `extractedData` of `simulateAIProcessing`. `habits`
is an object whose keys are set conditionally: `wakeTime = none` models the
absent key, and `workoutIntended = false` models absence of that key (the
source only ever sets it to `true`). -/
structure ExtractedData : Type where
  tasks : List DayTask
  wakeTime : Option String
  workoutIntended : Bool
  mood : String
  insights : List String
  paraCategory : Option String
deriving DecidableEq, Repr

def PARA_PROJECTS : String := "Projects"
def PARA_RESOURCES : String := "Resources"

def taskKeywords : List String := ["finish", "complete", "start", "work on", "prepare"]

def wakeKw (lowerText : String) : Bool :=
  jsIncludes lowerText "wake" || jsIncludes lowerText "morning"

def workoutKw (lowerText : String) : Bool :=
  jsIncludes lowerText "workout" || jsIncludes lowerText "exercise" ||
    jsIncludes lowerText "gym"

def taskKw (lowerText : String) : Bool :=
  jsIncludes lowerText "task" || jsIncludes lowerText "todo" ||
    jsIncludes lowerText "need to"

def learnKw (lowerText : String) : Bool :=
  jsIncludes lowerText "learn" || jsIncludes lowerText "study" ||
    jsIncludes lowerText "research"

def projectKw (lowerText : String) : Bool :=
  jsIncludes lowerText "project" || jsIncludes lowerText "deadline" ||
    jsIncludes lowerText "deliver"

def negMoodKw (lowerText : String) : Bool :=
  jsIncludes lowerText "stressed" || jsIncludes lowerText "overwhelmed" ||
    jsIncludes lowerText "tired"

def posMoodKw (lowerText : String) : Bool :=
  jsIncludes lowerText "excited" || jsIncludes lowerText "great" ||
    jsIncludes lowerText "awesome"

/-- The deterministic part of `simulateAIProcessing` (source lines
1347–1404): sequential keyword rules over `lowerText`, with the time regex
run against the original `text`. -/
def simulateAIProcessing (text : String) : ExtractedData :=
  let lowerText := jsToLower text
  let timeM := jsTimeMatch text
  let wakeTime : Option String := if wakeKw lowerText then timeM else none
  let insWake : List String :=
    match wakeTime with
    | some t => ["Wake time noted: " ++ t]
    | none => []
  let workoutHit := workoutKw lowerText
  let insWorkout : List String :=
    if workoutHit then ["Workout activity detected"] else []
  let tasks : List DayTask :=
    if taskKw lowerText then
      (taskKeywords.filter (fun k => jsIncludes lowerText k)).map
        (fun k => ⟨"Complete task related to: " ++ k, "Projects"⟩)
    else []
  let learnHit := learnKw lowerText
  let insLearn : List String :=
    if learnHit then ["Learning activity detected - categorized under Resources"]
    else []
  let projHit := projectKw lowerText
  let insProj : List String :=
    if projHit then ["Project-related activity detected"] else []
  let para : Option String :=
    if projHit then some PARA_PROJECTS
    else if learnHit then some PARA_RESOURCES
    else none
  let mood : String :=
    if negMoodKw lowerText then "low"
    else if posMoodKw lowerText then "high"
    else "neutral"
  { tasks := tasks, wakeTime := wakeTime, workoutIntended := workoutHit,
    mood := mood, insights := insWake ++ insWorkout ++ insLearn ++ insProj,
    paraCategory := para }

/-! ## The Dashboard merge handler (source lines 1038–1057)

`AIChatbot`'s `onProcess` copies the current day's record, overwrites
`wakeTime` with the extracted literal when present, marks the workout
`intended`, overwrites a non-neutral mood, appends the insights to `notes`
(the source's `"\\n"` is the two-character backslash-n literal), and then
persists the result through `saveDay` = `upsertDay(date, updatedData)`. -/

def valFields : Option Val → Obj Val
  | some (.o fs) => fs
  | _ => []

def applyProcessedData (pd : ExtractedData) (data : Obj Val) : Obj Val :=
  let u₀ := data
  let u₁ :=
    match pd.wakeTime with
    | some t => if t != "" then Obj.set u₀ "wakeTime" (Val.s t) else u₀
    | none => u₀
  let u₂ :=
    if pd.workoutIntended then
      Obj.set u₁ "workout"
        (Val.o (Obj.spread (valFields (Obj.find u₁ "workout"))
          [("status", Val.s "intended")]))
    else u₁
  let u₃ := if pd.mood != "neutral" then Obj.set u₂ "mood" (Val.s pd.mood) else u₂
  if pd.insights.length > 0 then
    let prevNotes :=
      match Obj.find data "notes" with
      | some (.s n) => if n != "" then n ++ "\\n" else ""
      | _ => ""
    Obj.set u₃ "notes"
      (Val.s (prevNotes ++ "AI Insights: " ++ String.intercalate ", " pd.insights))
  else u₃

/-- Formalizes the spec's phrase "`HH:MM` 24-hour string": exactly five
characters, two digits, a colon, two digits, with hour below 24 and minute
below 60. Stated from the spec's words, to compare stored values against. -/
def specHHMM24 (s : String) : Bool :=
  match s.toList with
  | [h1, h2, c, m1, m2] =>
    h1.isDigit && h2.isDigit && c == ':' && m1.isDigit && m2.isDigit &&
      decide ((h1.toNat - '0'.toNat) * 10 + (h2.toNat - '0'.toNat) < 24) &&
      decide ((m1.toNat - '0'.toNat) * 10 + (m2.toNat - '0'.toNat) < 60)
  | _ => false

/-- An optional field is a well-formed time: absent is fine, a string must
be `HH:MM` 24-hour; a non-string in a time position is malformed. -/
def optTimeOk : Option Val → Bool
  | none => true
  | some (.s v) => specHHMM24 v
  | some _ => false

/-- The spec's time-of-day invariant over one `DayRecord`: `wakeTime`,
`workout.time`, `lunch.time`, `dinner.time` and the four `goals` fields are
`HH:MM` 24-hour strings when present (the fields the claim enumerates). -/
def timeFieldsHHMM (r : Obj Val) : Bool :=
  optTimeOk (Obj.find r "wakeTime") &&
  optTimeOk (Obj.find (valFields (Obj.find r "workout")) "time") &&
  optTimeOk (Obj.find (valFields (Obj.find r "lunch")) "time") &&
  optTimeOk (Obj.find (valFields (Obj.find r "dinner")) "time") &&
  (let g := valFields (Obj.find r "goals")
   optTimeOk (Obj.find g "wakeGoal") && optTimeOk (Obj.find g "workoutGoal") &&
     optTimeOk (Obj.find g "lunchTime") && optTimeOk (Obj.find g "dinnerTime"))

/-! ## Basic facts about the object model -/

/-- Assignment followed by lookup of the same key. -/
theorem Obj.find_set_self {α : Type} (o : Obj α) (k : String) (v : α) :
    Obj.find (Obj.set o k v) k = some v := by
  induction o with
  | nil => simp [Obj.set, Obj.find]
  | cons p t ih =>
    by_cases h : p.1 = k
    · simp [Obj.set, Obj.find, h]
    · simp [Obj.set, Obj.find, h, ih]

/-- Assignment leaves every other key's value unchanged. -/
theorem Obj.find_set_ne {α : Type} (o : Obj α) {k k' : String} (h : k' ≠ k)
    (v : α) : Obj.find (Obj.set o k v) k' = Obj.find o k' := by
  induction o with
  | nil => simp [Obj.set, Obj.find, Ne.symm h]
  | cons p t ih =>
    by_cases hp : p.1 = k
    · simp [Obj.set, Obj.find, hp, Ne.symm h]
    · simp [Obj.set, Obj.find, hp, ih]

/-- Assignment never produces the empty object. -/
theorem Obj.set_ne_nil {α : Type} (o : Obj α) (k : String) (v : α) :
    Obj.set o k v ≠ [] := by
  cases o with
  | nil => simp [Obj.set]
  | cons p t =>
    by_cases hp : p.1 = k <;> simp [Obj.set, hp]

/-- Spreading onto the empty object gives back the right operand. -/
theorem Obj.spread_nil_left {α : Type} (b : Obj α) :
    Obj.spread ([] : Obj α) b = b := by
  simp [Obj.spread, Obj.hasKey]

/-- A nonempty list has nonzero length, so the seed guard is false. -/
theorem length_beq_zero_false {α : Type} {l : List α} (h : l ≠ []) :
    (l.length == 0) = false := by
  cases l with
  | nil => exact absurd rfl h
  | cons a t => simp

/-! ## The claims -/

/-- C1 (counterexample): on the Supabase success path, `upsert(d, p1)` then
`upsert(d, p2)` does NOT yield the shallow merge of `p1` and `p2`: the row
upsert replaces the `payload` column, so the returned and persisted record
is `p2` alone and the field only in `p1` is lost. -/
theorem upsertDay_remote_replaces_cex :
    (upsertDay ⟨.supa, true⟩ false "2025-09-01" [("b", "2")]
        (upsertDay ⟨.supa, true⟩ false "2025-09-01" [("a", "1")]
          (⟨[], []⟩ : StoreSt String)).2).1
      ≠ Obj.spread [("a", "1")] [("b", "2")] ∧
    Obj.find (upsertDay ⟨.supa, true⟩ false "2025-09-01" [("b", "2")]
        (upsertDay ⟨.supa, true⟩ false "2025-09-01" [("a", "1")]
          (⟨[], []⟩ : StoreSt String)).2).2.remoteRows "2025-09-01"
      = some [("b", "2")] := by
  exact ⟨by decide, by decide⟩

/-- C1 (amended): starting from no record for `d`, `upsert(d,p1)` then
`upsert(d,p2)` returns and persists exactly the shallow merge of `p1` and
`p2` (fields in `p2` win, fields only in `p1` survive) on the LOCAL backend
(`upsertDayLocal`, which is also what `upsertDay` runs when the backend is
local or the remote call fails); the Supabase success path of `upsertDay`
instead persists `p2` alone. -/
theorem upsertDayLocal_merge (d : String) {α : Type} (p1 p2 : Obj α)
    (all : Obj (Obj α)) (h : Obj.find all d = none) :
    (upsertDayLocal d p2 (upsertDayLocal d p1 all).2).1 = Obj.spread p1 p2 ∧
    Obj.find (upsertDayLocal d p2 (upsertDayLocal d p1 all).2).2 d
      = some (Obj.spread p1 p2) ∧
    (∀ st : StoreSt α,
      Obj.find ((upsertDay ⟨.supa, true⟩ false d p2
          ((upsertDay ⟨.supa, true⟩ false d p1 st).2)).2).remoteRows d
        = some p2) := by
  refine ⟨?_, ?_, ?_⟩
  · simp [upsertDayLocal, h, Obj.spread_nil_left, Obj.find_set_self]
  · simp [upsertDayLocal, h, Obj.spread_nil_left, Obj.find_set_self]
  · intro st
    simp [upsertDay, Cfg.remoteActive, Obj.find_set_self]

/-- C1 (witness): the amended merge property at a concrete input. -/
theorem upsertDayLocal_merge_witness :
    (upsertDayLocal "2025-09-01" [("b", "2")]
        (upsertDayLocal "2025-09-01" [("a", "1")]
          ([] : Obj (Obj String))).2).1
      = Obj.spread [("a", "1")] [("b", "2")] :=
  (upsertDayLocal_merge "2025-09-01" [("a", "1")] [("b", "2")] []
    (by decide)).1

/-- C2: if the remote call fails (throws), each of `loadAllDays`,
`upsertDay`, `readDay` returns exactly what the local-backend operation
returns on the existing local state (and, the operations being total
functions here, no error reaches the caller); this holds whatever the
configured backend is, since the non-remote path is the local operation
itself. -/
theorem remote_failure_falls_back_local {α : Type} (cfg : Cfg) (d : String)
    (data : Obj α) (st : StoreSt α) :
    loadAllDays cfg true st = st.localDays ∧
    upsertDay cfg true d data st
      = ((upsertDayLocal d data st.localDays).1,
         { st with localDays := (upsertDayLocal d data st.localDays).2 }) ∧
    readDay cfg true d st = readDayLocal d st.localDays := by
  refine ⟨?_, ?_, ?_⟩ <;> simp [loadAllDays, upsertDay, readDay]

/-- C9: for an absent (`getItem` returned `null`), empty, or non-parseable
payload, `loadAllDaysLocal` evaluates to the empty mapping — the
`try`/`catch` makes it a total function, so nothing is thrown — and a
subsequent `readDayLocal` yields "not found" (`none`), not a default
record. -/
theorem loadAllDaysLocal_corrupt_empty {α : Type} (raw : Option String)
    (parse : String → Except String (Obj (Obj α))) (d : String)
    (h : raw = none ∨ raw = some "" ∨
      ∃ s e, raw = some s ∧ parse s = .error e) :
    loadAllDaysLocal raw parse = [] ∧
    readDayLocal d (loadAllDaysLocal raw parse) = none := by
  have hempty : loadAllDaysLocal raw parse = [] := by
    rcases h with h | h | ⟨s, e, hs, hp⟩
    · simp [loadAllDaysLocal, h]
    · simp [loadAllDaysLocal, h]
    · simp [loadAllDaysLocal, hs, hp]
  exact ⟨hempty, by simp [readDayLocal, hempty, Obj.find]⟩

/-- C9 (witness): a concrete corrupt payload. -/
theorem loadAllDaysLocal_corrupt_empty_witness :
    loadAllDaysLocal (some "not json")
        (fun _ => (.error "SyntaxError" : Except String (Obj (Obj String)))) = [] ∧
    readDayLocal "2025-09-01"
        (loadAllDaysLocal (some "not json")
          (fun _ => (.error "SyntaxError" : Except String (Obj (Obj String)))))
      = none :=
  loadAllDaysLocal_corrupt_empty (some "not json")
    (fun _ => .error "SyntaxError") "2025-09-01"
    (Or.inr (Or.inr ⟨"not json", "SyntaxError", rfl, rfl⟩))

/-- C10: a local upsert for date `d` leaves the stored record (or absence)
of every other date `d'` exactly as it was. -/
theorem upsertDayLocal_frame {α : Type} (d d' : String) (h : d' ≠ d)
    (p : Obj α) (all : Obj (Obj α)) :
    Obj.find (upsertDayLocal d p all).2 d' = Obj.find all d' := by
  simp [upsertDayLocal, Obj.find_set_ne _ h]

/-- C10 (witness): the frame property at a concrete store. -/
theorem upsertDayLocal_frame_witness :
    Obj.find (upsertDayLocal "2025-09-02" [("x", "1")]
        [("2025-09-01", [("y", "2")])]).2 "2025-09-01"
      = some [("y", "2")] :=
  (upsertDayLocal_frame "2025-09-02" "2025-09-01" (by decide) [("x", "1")]
      [("2025-09-01", [("y", "2")])]).trans (by decide)

/-- C3 (counterexample): `"I woke up at 7:30 am"` contains neither the
substring `wake` nor `morning` ("woke" is not "wake"), so the extractor
sets no `habits.wakeTime` and appends no insight at all — contradicting the
claimed value containing `"7:30 am"`. -/
theorem woke_up_sets_nothing_cex :
    (simulateAIProcessing "I woke up at 7:30 am").wakeTime = none ∧
    (simulateAIProcessing "I woke up at 7:30 am").insights = [] :=
  ⟨rfl, rfl⟩

/-- C3 (amended): when the lowercased text contains `wake` or `morning` as
a substring, `habits.wakeTime` is the first (leftmost, alternatives in
source order) match of the time pattern against the original text,
un-normalized, and the first insight names that literal. In particular the
spec's example must use the literal keyword: for
`"I wake up at 7:30 am"` the first match is `"7:30"` — the `H:MM`
alternative matches before the am-form, so the ` am` suffix is not part of
the stored value. -/
theorem wakeTime_first_match (text : String)
    (h : wakeKw (jsToLower text) = true) :
    (simulateAIProcessing text).wakeTime = jsTimeMatch text ∧
    (∀ t, jsTimeMatch text = some t →
      (simulateAIProcessing text).insights.head?
        = some ("Wake time noted: " ++ t)) := by
  constructor
  · simp [simulateAIProcessing, h]
  · intro t ht
    simp [simulateAIProcessing, h, ht]

/-- C3 (witness): the amended rule at `"I wake up at 7:30 am"`. -/
theorem wakeTime_first_match_witness :
    (simulateAIProcessing "I wake up at 7:30 am").wakeTime = some "7:30" ∧
    (simulateAIProcessing "I wake up at 7:30 am").insights.head?
      = some ("Wake time noted: " ++ "7:30") := by
  have h := wakeTime_first_match "I wake up at 7:30 am" (by decide)
  exact ⟨h.1.trans (by decide), h.2 "7:30" (by decide)⟩

/-- C4 (counterexample): processing `"wake at 7 am"` extracts
`wakeTime = "7 am"`, and the Dashboard merge handler persists it verbatim
through a local upsert; `"7 am"` is not an `HH:MM` 24-hour string. -/
theorem merge_persists_non24h_cex :
    Obj.find ((Obj.find (upsertDayLocal "2025-09-01"
        (applyProcessedData (simulateAIProcessing "wake at 7 am") [])
        ([] : Obj (Obj Val))).2 "2025-09-01").getD []) "wakeTime"
      = some (Val.s "7 am") ∧
    specHHMM24 "7 am" = false :=
  ⟨rfl, rfl⟩

/-- C4 (amended): the synthesized seed record keeps the `HH:MM` 24-hour
invariant on every enumerated time field, but the store does NOT maintain
the invariant across all writes: merging an extraction result through the
Dashboard handler persists the un-normalized 12-hour literal exactly as
matched (the spec's own §9 open question). -/
theorem seed_HHMM_merge_path_not :
    timeFieldsHHMM seedRecord = true ∧
    timeFieldsHHMM ((Obj.find (upsertDayLocal "2025-09-01"
        (applyProcessedData (simulateAIProcessing "wake at 7 am") [])
        ([] : Obj (Obj Val))).2 "2025-09-01").getD []) = false :=
  ⟨rfl, rfl⟩

/-- C5: `paraCategory` is decided by the last-evaluated rule: with both a
learning and a project keyword it is `"Projects"` (rule 5 overwrites rule
4), with only a learning keyword it is `"Resources"`, with neither it is
`null`. -/
theorem paraCategory_rule (text : String) :
    (learnKw (jsToLower text) = true → projectKw (jsToLower text) = true →
      (simulateAIProcessing text).paraCategory = some "Projects") ∧
    (learnKw (jsToLower text) = true → projectKw (jsToLower text) = false →
      (simulateAIProcessing text).paraCategory = some "Resources") ∧
    (learnKw (jsToLower text) = false → projectKw (jsToLower text) = false →
      (simulateAIProcessing text).paraCategory = none) := by
  refine ⟨?_, ?_, ?_⟩ <;> intro h1 h2 <;>
    simp [simulateAIProcessing, h1, h2, PARA_PROJECTS, PARA_RESOURCES]

/-- C5 (witness): a text with both keyword classes lands in `Projects`. -/
theorem paraCategory_rule_witness :
    (simulateAIProcessing "learn about the project").paraCategory
      = some "Projects" :=
  (paraCategory_rule "learn about the project").1 (by decide) (by decide)

/-- C6: with a task/reminder keyword present, the task list is exactly one
entry per verb keyword occurring in the lowercased text, in the order of
the fixed verb list (not text order); with no task keyword it is empty. -/
theorem tasks_rule (text : String) :
    (taskKw (jsToLower text) = true →
      (simulateAIProcessing text).tasks
        = (taskKeywords.filter (fun k => jsIncludes (jsToLower text) k)).map
            (fun k => ⟨"Complete task related to: " ++ k, "Projects"⟩)) ∧
    (taskKw (jsToLower text) = false →
      (simulateAIProcessing text).tasks = []) := by
  constructor <;> intro h <;> simp [simulateAIProcessing, h]

/-- C6 (witness): `start` occurs before `finish` in the text, yet the
entries come out in verb-list order (`finish` first). -/
theorem tasks_rule_witness :
    (simulateAIProcessing "I need to start then finish the slides").tasks
      = [⟨"Complete task related to: finish", "Projects"⟩,
         ⟨"Complete task related to: start", "Projects"⟩] := by
  have h := (tasks_rule "I need to start then finish the slides").1 (by decide)
  exact h.trans (by decide)

/-- C7: mood is `"low"` whenever a negative-affect keyword occurs (also
when a positive one occurs too), else `"high"` with a positive-affect
keyword, else `"neutral"`. -/
theorem mood_rule (text : String) :
    (negMoodKw (jsToLower text) = true →
      (simulateAIProcessing text).mood = "low") ∧
    (negMoodKw (jsToLower text) = false → posMoodKw (jsToLower text) = true →
      (simulateAIProcessing text).mood = "high") ∧
    (negMoodKw (jsToLower text) = false → posMoodKw (jsToLower text) = false →
      (simulateAIProcessing text).mood = "neutral") := by
  refine ⟨fun h => by simp [simulateAIProcessing, h],
    fun h1 h2 => by simp [simulateAIProcessing, h1, h2],
    fun h1 h2 => by simp [simulateAIProcessing, h1, h2]⟩

/-- C7 (witness): `great` (positive) and `tired` (negative) together give
`"low"`. -/
theorem mood_rule_witness :
    (simulateAIProcessing "it was great but I am tired").mood = "low" :=
  (mood_rule "it was great but I am tired").1 (by decide)

/-- C8: for every backend configuration and every consistent remote
outcome `f` (each call resolving to the same store — all succeeding, or
all falling back), `seedIfEmpty` inserts the one synthesized record for
today's date exactly when `loadAllDays` finds zero records; a store with
at least one record (for any date) is left completely unchanged — no
merging into an existing day — and after any upsert a second run never
re-seeds. -/
theorem seedIfEmpty_rule (cfg : Cfg) (f : Bool) (today : String)
    (st : StoreSt Val) :
    (loadAllDays cfg f st = [] →
      loadAllDays cfg f (seedIfEmpty cfg f f today st)
        = [(today, seedRecord)]) ∧
    (loadAllDays cfg f st ≠ [] →
      seedIfEmpty cfg f f today st = st) ∧
    (∀ d p, seedIfEmpty cfg f f today
        ((upsertDay cfg f d p st).2) = (upsertDay cfg f d p st).2) := by
  by_cases hro : cfg.remoteActive = true
  · cases f with
    | false =>
      refine ⟨?_, ?_, ?_⟩
      · intro h
        have h' : st.remoteRows = [] := by simpa [loadAllDays, hro] using h
        simp [seedIfEmpty, loadAllDays, upsertDay, hro, h', Obj.set]
      · intro h
        have h' : st.remoteRows ≠ [] := by simpa [loadAllDays, hro] using h
        simp [seedIfEmpty, loadAllDays, hro, length_beq_zero_false h']
      · intro d p
        simp [seedIfEmpty, loadAllDays, upsertDay, hro,
          length_beq_zero_false (Obj.set_ne_nil st.remoteRows d p)]
    | true =>
      refine ⟨?_, ?_, ?_⟩
      · intro h
        have h' : st.localDays = [] := by simpa [loadAllDays, hro] using h
        simp [seedIfEmpty, loadAllDays, upsertDay, upsertDayLocal, hro, h',
          Obj.set, Obj.find, Obj.spread_nil_left]
      · intro h
        have h' : st.localDays ≠ [] := by simpa [loadAllDays, hro] using h
        simp [seedIfEmpty, loadAllDays, hro, length_beq_zero_false h']
      · intro d p
        have hne := Obj.set_ne_nil st.localDays d
          (Obj.spread ((Obj.find st.localDays d).getD []) p)
        simp [seedIfEmpty, loadAllDays, upsertDay, upsertDayLocal, hro,
          length_beq_zero_false hne]
  · rw [Bool.not_eq_true] at hro
    refine ⟨?_, ?_, ?_⟩
    · intro h
      have h' : st.localDays = [] := by simpa [loadAllDays, hro] using h
      simp [seedIfEmpty, loadAllDays, upsertDay, upsertDayLocal, hro, h',
        Obj.set, Obj.find, Obj.spread_nil_left]
    · intro h
      have h' : st.localDays ≠ [] := by simpa [loadAllDays, hro] using h
      simp [seedIfEmpty, loadAllDays, hro, length_beq_zero_false h']
    · intro d p
      have hne := Obj.set_ne_nil st.localDays d
        (Obj.spread ((Obj.find st.localDays d).getD []) p)
      simp [seedIfEmpty, loadAllDays, upsertDay, upsertDayLocal, hro,
        length_beq_zero_false hne]

/-- C8 (witness): seeding a completely empty local store yields exactly the
one seed record for today. -/
theorem seedIfEmpty_rule_witness :
    loadAllDays ⟨.loc, false⟩ false
      (seedIfEmpty ⟨.loc, false⟩ false false "2025-09-01" ⟨[], []⟩)
      = [("2025-09-01", seedRecord)] :=
  (seedIfEmpty_rule ⟨.loc, false⟩ false "2025-09-01" ⟨[], []⟩).1 rfl

end FlowState
